import Mathlib

/-!
Verification of `src/parse_errors.py`, a filter that reads newline-delimited
JSON compiler diagnostics from stdin, keeps `compiler-message` records of
level `error` or `warning` that have a location span, formats them as
`level|file_name:line_start|message`, and prints the deduplicated, sorted
entries under `=== ERRORS ===` and `=== WARNINGS ===` headers.

The embedding is shallow.  JSON values decoded by `json.loads` are modelled
by the inductive `JValue` (JSON numbers are modelled as integers; no claim
involves fractional numbers).  Each physical input line is modelled by what
the line reader and `json.loads` make of it: blank after stripping,
malformed (raising `json.JSONDecodeError`), or successfully decoded to a
`JValue`.  Python exceptions that escape the `try` block (which catches only
`json.JSONDecodeError`) are modelled with `Except PyErr`: `AttributeError`
from calling `.get` on a non-dict, `TypeError` from subscripting a
non-subscriptable value, `KeyError` from subscripting a dict with the
integer key `0` (JSON object keys are all strings).
-/

/-- A decoded JSON value, as produced by `json.loads`.  Objects keep their
key/value pairs in source order; Python dicts give the last duplicate key
the final say, which `lookupD` honours. -/
inductive JValue where
  | null : JValue
  | bool : Bool → JValue
  | num : Int → JValue
  | str : String → JValue
  | arr : List JValue → JValue
  | obj : List (String × JValue) → JValue
deriving Repr

/-- Python exceptions that can escape the per-line `try` block of
`parse_errors.py` (it catches only `json.JSONDecodeError`). -/
inductive PyErr where
  | attributeError : PyErr
  | typeError : PyErr
  | keyError : PyErr
deriving Repr, DecidableEq

/-- Dict lookup with default, as in Python `d.get(k, default)` on a dict
built by `json.loads`: when the JSON text repeated a key, the last
occurrence wins. -/
def lookupD (kvs : List (String × JValue)) (k : String) (d : JValue) : JValue :=
  match kvs.reverse.find? (fun p => p.1 == k) with
  | some p => p.2
  | none => d

/-- Python `v.get(k, d)`: succeeds on a dict, raises `AttributeError` on
every other value produced by `json.loads` (`None`, `bool`, `int`, `str`,
`list` have no `get` method). -/
def pyGet (v : JValue) (k : String) (d : JValue) : Except PyErr JValue :=
  match v with
  | .obj kvs => .ok (lookupD kvs k d)
  | _ => .error .attributeError

/-- Python truthiness (`if spans:`) of a value produced by `json.loads`. -/
def truthy : JValue → Bool
  | .null => false
  | .bool b => b
  | .num n => n != 0
  | .str s => !s.isEmpty
  | .arr xs => !xs.isEmpty
  | .obj kvs => !kvs.isEmpty

/-- Python `v[0]` (`spans[0]` in the source): first element of a list,
first character of a string (as a one-character string), `KeyError` on a
dict (JSON object keys are strings, so the integer key `0` is absent),
`TypeError` on `None`, `bool` and `int`. -/
def subscript0 : JValue → Except PyErr JValue
  | .arr [] => .error .typeError
  | .arr (x :: _) => .ok x
  | .str s =>
      match s.data with
      | [] => .error .typeError
      | c :: _ => .ok (.str (String.singleton c))
  | .obj _ => .error .keyError
  | _ => .error .typeError

/-- Python `v == s` for a string literal `s`: true exactly when `v` is an
equal string (no JSON value of another type compares equal to a `str`). -/
def jEqStr (v : JValue) (s : String) : Bool :=
  match v with
  | .str t => t == s
  | _ => false

/-- Python `repr` of a `str`: quoted with `'`, or with `"` when the string
contains `'` but no `"`; the backslash, the chosen quote, newline, carriage
return and tab are escaped.  (`\xNN` escapes for other non-printable
characters are not modelled; no claim exercises them.) -/
def pyReprString (s : String) : String :=
  let sq : Char := Char.ofNat 39
  let dq : Char := Char.ofNat 34
  let q : Char := if s.contains sq && !s.contains dq then dq else sq
  let esc : Char → String := fun c =>
    if c = '\\' then "\\\\"
    else if c = q then "\\" ++ String.singleton q
    else if c = Char.ofNat 10 then "\\n"
    else if c = Char.ofNat 13 then "\\r"
    else if c = Char.ofNat 9 then "\\t"
    else String.singleton c
  String.singleton q ++ String.join (s.data.map esc) ++ String.singleton q

mutual
/-- Python `repr` of a value produced by `json.loads`. -/
def pyRepr : JValue → String
  | .null => "None"
  | .bool true => "True"
  | .bool false => "False"
  | .num n => toString n
  | .str s => pyReprString s
  | .arr xs => "[" ++ pyReprList xs ++ "]"
  | .obj kvs => "\x7b" ++ pyReprObj kvs ++ "\x7d"

/-- Comma-separated `repr`s of a list's elements. -/
def pyReprList : List JValue → String
  | [] => ""
  | [v] => pyRepr v
  | v :: rest => pyRepr v ++ ", " ++ pyReprList rest

/-- Comma-separated `repr(k): repr(v)` pairs of a dict's items. -/
def pyReprObj : List (String × JValue) → String
  | [] => ""
  | [(k, v)] => pyReprString k ++ ": " ++ pyRepr v
  | (k, v) :: rest => pyReprString k ++ ": " ++ pyRepr v ++ ", " ++ pyReprObj rest
end

/-- Python `str` of a value produced by `json.loads`, as interpolated by the
f-string in the source: a `str` renders as itself, every other value
renders as its `repr` (for `None`, `bool`, `int`, `list`, `dict`,
`str(x) == repr(x)`). -/
def pyStr : JValue → String
  | .str s => s
  | v => pyRepr v

/-- The body of the `try` block applied to one decoded record `data`:

    if data.get('reason') == 'compiler-message':
        msg = data.get('message', {})
        level = msg.get('level')
        if level in ('error', 'warning'):
            spans = msg.get('spans', [])
            if spans:
                span = spans[0]
                file_name = span.get('file_name', 'unknown')
                line_start = span.get('line_start', 0)
                message = msg.get('message', '')
                entry = f"{level}|{file_name}:{line_start}|{message}"

Returns `some (level, entry)` when an entry is produced, `none` when the
record is discarded, and an error when an uncaught exception is raised. -/
def processData (data : JValue) : Except PyErr (Option (JValue × String)) := do
  let reason ← pyGet data "reason" .null
  if jEqStr reason "compiler-message" then
    let msg ← pyGet data "message" (.obj [])
    let level ← pyGet msg "level" .null
    if jEqStr level "error" || jEqStr level "warning" then
      let spans ← pyGet msg "spans" (.arr [])
      if truthy spans then
        let span ← subscript0 spans
        let file_name ← pyGet span "file_name" (.str "unknown")
        let line_start ← pyGet span "line_start" (.num 0)
        let message ← pyGet msg "message" (.str "")
        return some (level,
          pyStr level ++ "|" ++ pyStr file_name ++ ":" ++ pyStr line_start
            ++ "|" ++ pyStr message)
      else
        return none
    else
      return none
  else
    return none

/-- One physical input line, as the line reader and `json.loads` see it:
blank after `strip()`, malformed JSON (`json.loads` raises
`json.JSONDecodeError`), or successfully decoded to a value. -/
inductive LineResult where
  | blank : LineResult
  | malformed : LineResult
  | ok : JValue → LineResult

/-- The per-line step of the main loop: blank lines are skipped, malformed
lines are silently swallowed by `except json.JSONDecodeError: pass`, and
decoded records go through `processData`. -/
def step : LineResult → Except PyErr (Option (JValue × String))
  | .blank => .ok none
  | .malformed => .ok none
  | .ok data => processData data

/-- The main loop over the input lines, threading the `errors` and
`warnings` accumulator lists (`level == 'error'` routes to `errors`,
otherwise to `warnings`).  An uncaught exception aborts the loop. -/
def runLines : List LineResult → List String → List String →
    Except PyErr (List String × List String)
  | [], errs, warns => .ok (errs, warns)
  | l :: rest, errs, warns =>
    match step l with
    | .error e => .error e
    | .ok none => runLines rest errs warns
    | .ok (some (lvl, entry)) =>
      if jEqStr lvl "error" then runLines rest (errs ++ [entry]) warns
      else runLines rest errs (warns ++ [entry])

/-- `sorted(set(xs))` for a list of strings: remove duplicates, then sort
in ascending lexicographic (codepoint) order.  Lean's `≤` on `String`
compares character lists lexicographically by codepoint, matching Python's
comparison of `str` values. -/
def sortedSet (xs : List String) : List String :=
  (xs.dedup).insertionSort (· ≤ ·)

/-- The output section of the program, as the list of printed lines:

    print("=== ERRORS ===")
    for e in sorted(set(errors)): print(e)
    print("\n=== WARNINGS ===")
    for w in sorted(set(warnings)): print(w)

(`print("\n...")` produces one empty line, then the header). -/
def renderOutput (errs warns : List String) : List String :=
  "=== ERRORS ===" :: sortedSet errs
    ++ "" :: "=== WARNINGS ===" :: sortedSet warns

/-- The whole program on a given input stream: run the main loop, then
print.  `.ok lines` models a normal run printing `lines` and exiting with
success status; `.error e` models an uncaught exception (no output,
abnormal termination). -/
def run (input : List LineResult) : Except PyErr (List String) :=
  match runLines input [] [] with
  | .ok (errs, warns) => .ok (renderOutput errs warns)
  | .error e => .error e

/-- Whether the per-line step of the loop completes without an uncaught
exception. -/
def okStep (l : LineResult) : Bool :=
  match step l with
  | .ok _ => true
  | .error _ => false

/-- The entry a line contributes to the `errors` accumulator, if any. -/
def lineErr (l : LineResult) : Option String :=
  match step l with
  | .ok (some (lvl, entry)) => if jEqStr lvl "error" then some entry else none
  | _ => none

/-- The entry a line contributes to the `warnings` accumulator, if any. -/
def lineWarn (l : LineResult) : Option String :=
  match step l with
  | .ok (some (lvl, entry)) => if jEqStr lvl "error" then none else some entry
  | _ => none

/-- The number of input lines that decode successfully. -/
def decodedCount (input : List LineResult) : Nat :=
  (input.filter fun l =>
    match l with
    | .ok _ => true
    | _ => false).length

/-- The decoded value of the Scenario A input line
`{"reason":"compiler-message","message":{"level":"error","message":"mismatched types","spans":[{"file_name":"src/main.rs","line_start":10}]}}`. -/
def dataScenarioA : JValue :=
  .obj [("reason", .str "compiler-message"),
    ("message", .obj [("level", .str "error"),
      ("message", .str "mismatched types"),
      ("spans", .arr [.obj [("file_name", .str "src/main.rs"),
        ("line_start", .num 10)]])])]

/-! ## Helper lemmas -/

theorem jEqStr_iff (v : JValue) (s : String) : jEqStr v s = true ↔ v = .str s := by
  cases v <;> simp [jEqStr]

theorem sortedSet_sorted (xs : List String) : (sortedSet xs).Sorted (· ≤ ·) :=
  List.sorted_insertionSort _ _

theorem sortedSet_nodup (xs : List String) : (sortedSet xs).Nodup :=
  (List.perm_insertionSort _ _).nodup_iff.mpr xs.nodup_dedup

theorem mem_sortedSet (a : String) (xs : List String) : a ∈ sortedSet xs ↔ a ∈ xs :=
  ((List.perm_insertionSort _ _).mem_iff).trans (List.mem_dedup)

theorem sortedSet_eq_of_mem_iff (xs ys : List String) (h : ∀ a, a ∈ xs ↔ a ∈ ys) :
    sortedSet xs = sortedSet ys := by
  refine List.eq_of_perm_of_sorted ?_ (sortedSet_sorted xs) (sortedSet_sorted ys)
  refine (List.perm_ext_iff_of_nodup (sortedSet_nodup xs) (sortedSet_nodup ys)).mpr ?_
  intro a
  rw [mem_sortedSet, mem_sortedSet]
  exact h a

theorem runLines_append (xs ys : List LineResult) (errs warns : List String) :
    runLines (xs ++ ys) errs warns =
      match runLines xs errs warns with
      | .ok (e, w) => runLines ys e w
      | .error er => .error er := by
  induction xs generalizing errs warns with
  | nil => simp [runLines]
  | cons l rest ih =>
    simp only [List.cons_append, runLines]
    cases hs : step l with
    | error e => simp
    | ok r =>
      cases r with
      | none => exact ih errs warns
      | some p =>
        obtain ⟨lvl, entry⟩ := p
        by_cases hl : jEqStr lvl "error" = true <;> simp [hl, ih]

theorem runLines_ok_iff (input : List LineResult) (errs warns : List String) :
    (∃ p, runLines input errs warns = .ok p) ↔ ∀ l ∈ input, okStep l = true := by
  induction input generalizing errs warns with
  | nil => simp [runLines]
  | cons l rest ih =>
    simp only [runLines, List.mem_cons]
    cases hs : step l with
    | error e =>
      constructor
      · rintro ⟨p, hp⟩; cases hp
      · intro h
        exfalso
        have h1 := h l (Or.inl rfl)
        simp [okStep, hs] at h1
    | ok r =>
      have hok : okStep l = true := by simp [okStep, hs]
      cases r with
      | none =>
        rw [ih]
        constructor
        · intro h l' hl'
          rcases hl' with rfl | hl'
          · exact hok
          · exact h l' hl'
        · intro h l' hl'; exact h l' (Or.inr hl')
      | some p =>
        obtain ⟨lvl, entry⟩ := p
        by_cases hl : jEqStr lvl "error" = true <;>
          · simp only [hl, if_true, if_false, Bool.false_eq_true]
            rw [ih]
            constructor
            · intro h l' hl'
              rcases hl' with rfl | hl'
              · exact hok
              · exact h l' hl'
            · intro h l' hl'; exact h l' (Or.inr hl')

theorem runLines_eq_of_ok (input : List LineResult) (errs warns : List String)
    (h : ∀ l ∈ input, okStep l = true) :
    runLines input errs warns =
      .ok (errs ++ input.filterMap lineErr, warns ++ input.filterMap lineWarn) := by
  induction input generalizing errs warns with
  | nil => simp [runLines]
  | cons l rest ih =>
    have hl := h l (List.mem_cons_self l rest)
    have hrest : ∀ l' ∈ rest, okStep l' = true :=
      fun l' hl' => h l' (List.mem_cons_of_mem _ hl')
    simp only [runLines, List.filterMap_cons]
    cases hs : step l with
    | error e => simp [okStep, hs] at hl
    | ok r =>
      cases r with
      | none => simp [lineErr, lineWarn, hs, ih _ _ hrest]
      | some p =>
        obtain ⟨lvl, entry⟩ := p
        by_cases hb : jEqStr lvl "error" = true <;>
          simp [lineErr, lineWarn, hs, hb, ih _ _ hrest]

theorem decodedCount_cons_ok (d : JValue) (rest : List LineResult) :
    decodedCount (.ok d :: rest) = decodedCount rest + 1 := by
  simp [decodedCount, List.filter_cons]

theorem decodedCount_cons_blank (rest : List LineResult) :
    decodedCount (.blank :: rest) = decodedCount rest := by
  simp [decodedCount, List.filter_cons]

theorem decodedCount_cons_malformed (rest : List LineResult) :
    decodedCount (.malformed :: rest) = decodedCount rest := by
  simp [decodedCount, List.filter_cons]

theorem runLines_length (input : List LineResult) (errs warns e w : List String)
    (h : runLines input errs warns = .ok (e, w)) :
    e.length + w.length ≤ errs.length + warns.length + decodedCount input := by
  induction input generalizing errs warns with
  | nil =>
    simp only [runLines, Except.ok.injEq, Prod.mk.injEq] at h
    obtain ⟨rfl, rfl⟩ := h
    simp [decodedCount]
  | cons l rest ih =>
    simp only [runLines] at h
    split at h
    · cases h
    · have hb := ih _ _ h
      have hd : decodedCount rest ≤ decodedCount (l :: rest) := by
        cases l <;>
          simp [decodedCount_cons_ok, decodedCount_cons_blank, decodedCount_cons_malformed]
      omega
    · rename_i lvl entry heq
      have hld : ∃ d, l = LineResult.ok d := by
        cases l with
        | ok d => exact ⟨d, rfl⟩
        | blank => simp [step] at heq
        | malformed => simp [step] at heq
      obtain ⟨d, rfl⟩ := hld
      rw [decodedCount_cons_ok]
      split at h <;>
      · have := ih _ _ h
        simp only [List.length_append, List.length_cons, List.length_nil] at this
        omega

/-- Characterization of entry production: `processData` yields an entry
exactly from a dict whose `reason` is `"compiler-message"`, whose `message`
is a dict with `level` equal to `"error"` or `"warning"` and with a `spans`
list whose first element is a dict; the entry is the f-string with the
documented defaults. -/
theorem processData_some (data lvl : JValue) (e : String)
    (h : processData data = Except.ok (some (lvl, e))) :
    ∃ kvs mkvs skvs rest,
      data = JValue.obj kvs ∧
      lookupD kvs "reason" JValue.null = JValue.str "compiler-message" ∧
      lookupD kvs "message" (JValue.obj []) = JValue.obj mkvs ∧
      lvl = lookupD mkvs "level" JValue.null ∧
      (lvl = JValue.str "error" ∨ lvl = JValue.str "warning") ∧
      lookupD mkvs "spans" (JValue.arr []) = JValue.arr (JValue.obj skvs :: rest) ∧
      e = pyStr lvl ++ "|" ++ pyStr (lookupD skvs "file_name" (JValue.str "unknown"))
          ++ ":" ++ pyStr (lookupD skvs "line_start" (JValue.num 0))
          ++ "|" ++ pyStr (lookupD mkvs "message" (JValue.str "")) := by
  cases data with
  | obj kvs =>
    simp only [processData, pyGet, bind, Except.bind] at h
    split at h
    case isFalse => simp [pure, Except.pure] at h
    case isTrue hr =>
      cases hmsg : lookupD kvs "message" (JValue.obj []) with
      | obj mkvs =>
        rw [hmsg] at h
        simp only [pyGet, bind, Except.bind] at h
        split at h
        case isFalse => simp [pure, Except.pure] at h
        case isTrue hl =>
          split at h
          case isFalse => simp [pure, Except.pure] at h
          case isTrue ht =>
            cases hspans : lookupD mkvs "spans" (JValue.arr []) with
            | arr xs =>
              rw [hspans] at h ht
              cases xs with
              | nil => simp [truthy] at ht
              | cons x rest =>
                simp only [subscript0, bind, Except.bind] at h
                cases x with
                | obj skvs =>
                  simp only [pyGet, bind, Except.bind, pure, Except.pure,
                    Except.ok.injEq, Option.some.injEq, Prod.mk.injEq] at h
                  obtain ⟨h1, h2⟩ := h
                  refine ⟨kvs, mkvs, skvs, rest, rfl, ?_, hmsg, h1.symm, ?_, hspans, ?_⟩
                  · exact (jEqStr_iff _ _).mp hr
                  · rcases Bool.or_eq_true _ _ ▸ hl with hb | hb
                    · exact Or.inl (h1 ▸ (jEqStr_iff _ _).mp hb)
                    · exact Or.inr (h1 ▸ (jEqStr_iff _ _).mp hb)
                  · rw [← h2, h1]
                | null => simp [pyGet, bind, Except.bind] at h
                | bool b => simp [pyGet, bind, Except.bind] at h
                | num n => simp [pyGet, bind, Except.bind] at h
                | str s => simp [pyGet, bind, Except.bind] at h
                | arr ys => simp [pyGet, bind, Except.bind] at h
            | null => rw [hspans] at ht; simp [truthy] at ht
            | bool b =>
              rw [hspans] at h ht
              simp [subscript0, bind, Except.bind] at h
            | num n =>
              rw [hspans] at h
              simp [subscript0, bind, Except.bind] at h
            | str s =>
              rw [hspans] at h
              cases hsd : s.data with
              | nil => simp [subscript0, hsd, bind, Except.bind] at h
              | cons c cs => simp [subscript0, hsd, pyGet, bind, Except.bind] at h
            | obj okvs =>
              rw [hspans] at h
              simp [subscript0, bind, Except.bind] at h
      | null => rw [hmsg] at h; simp [pyGet, bind, Except.bind] at h
      | bool b => rw [hmsg] at h; simp [pyGet, bind, Except.bind] at h
      | num n => rw [hmsg] at h; simp [pyGet, bind, Except.bind] at h
      | str s => rw [hmsg] at h; simp [pyGet, bind, Except.bind] at h
      | arr xs => rw [hmsg] at h; simp [pyGet, bind, Except.bind] at h
  | null => simp [processData, pyGet, bind, Except.bind] at h
  | bool b => simp [processData, pyGet, bind, Except.bind] at h
  | num n => simp [processData, pyGet, bind, Except.bind] at h
  | str s => simp [processData, pyGet, bind, Except.bind] at h
  | arr xs => simp [processData, pyGet, bind, Except.bind] at h

/-- Rendering step of `run`: when the main loop completes with accumulators
`(e, w)`, the program prints `renderOutput e w` and exits successfully. -/
theorem run_eq_render (input : List LineResult) (e w : List String)
    (h : runLines input [] [] = Except.ok (e, w)) :
    run input = Except.ok (renderOutput e w) := by
  unfold run
  rw [h]

/-! ## Claims -/

/-- Claim C1, counterexample: the input line `5` decodes successfully to a
non-mapping value, and the run aborts with an uncaught `AttributeError`
(`int` has no `get` method) instead of treating fields as absent and
continuing. -/
theorem C1_counterexample :
    run [LineResult.ok (JValue.num 5)] = Except.error PyErr.attributeError := rfl

/-- Claim C1, amended: for every input line that decodes successfully to a
non-mapping value, the first field lookup `data.get('reason')` raises an
uncaught `AttributeError`, aborting the run (provided the preceding lines
themselves did not abort); the line contributes no entry, but processing
does not continue and no output is produced. -/
theorem C1_nonmapping_aborts (v : JValue) (hv : ∀ kvs, v ≠ JValue.obj kvs)
    (pre post : List LineResult) (hpre : ∀ l ∈ pre, okStep l = true) :
    run (pre ++ LineResult.ok v :: post) = Except.error PyErr.attributeError := by
  have hpd : processData v = Except.error PyErr.attributeError := by
    cases v with
    | obj kvs => exact absurd rfl (hv kvs)
    | null => rfl
    | bool b => rfl
    | num n => rfl
    | str s => rfl
    | arr xs => rfl
  have hrl := runLines_eq_of_ok pre [] [] hpre
  unfold run
  rw [runLines_append, hrl]
  simp [runLines, step, hpd]

/-- Claim C1, amended, witness at the concrete line `7`. -/
theorem C1_nonmapping_aborts_witness :
    run ([] ++ LineResult.ok (JValue.num 7) :: []) = Except.error PyErr.attributeError :=
  C1_nonmapping_aborts (JValue.num 7) (fun _ hk => JValue.noConfusion hk) [] []
    (fun l hl => absurd hl (List.not_mem_nil l))

/-- Claim C2, counterexample: the input line `[null]` is well-formed JSON,
is read to end-of-stream without any stream failure, and yet aborts the run
with an uncaught `AttributeError`: input content can abort the run. -/
theorem C2_counterexample :
    run [LineResult.ok (JValue.arr [JValue.null])] = Except.error PyErr.attributeError := rfl

/-- Claim C2, amended: the process runs to completion and exits with success
status whenever every line's processing raises no uncaught exception (blank
and malformed-JSON lines never do); however, a successfully decoded line
whose content makes a field lookup or subscript raise (e.g. a non-mapping
top-level value) aborts the run abnormally. -/
theorem C2_success (input : List LineResult) (h : ∀ l ∈ input, okStep l = true) :
    ∃ out, run input = Except.ok out := by
  have hrl := runLines_eq_of_ok input [] [] h
  simp only [List.nil_append] at hrl
  exact ⟨_, run_eq_render input _ _ hrl⟩

/-- Claim C2, amended, witness: a blank line and a malformed line exit
successfully. -/
theorem C2_success_witness :
    ∃ out, run [LineResult.blank, LineResult.malformed] = Except.ok out :=
  C2_success [LineResult.blank, LineResult.malformed]
    (by
      intro l hl
      simp only [List.mem_cons, List.not_mem_nil, or_false] at hl
      rcases hl with rfl | rfl <;> rfl)

/-- Claim C3: an entry is produced only if the record is a mapping whose
`reason` equals `"compiler-message"`, whose `message` mapping has `level`
exactly `"error"` or `"warning"`, and whose `spans` value is a non-empty
sequence (its first element is moreover a mapping); records failing any of
these conditions produce no entry. -/
theorem C3_entry_conditions (data lvl : JValue) (e : String)
    (h : processData data = Except.ok (some (lvl, e))) :
    ∃ kvs mkvs skvs rest,
      data = JValue.obj kvs ∧
      lookupD kvs "reason" JValue.null = JValue.str "compiler-message" ∧
      lookupD kvs "message" (JValue.obj []) = JValue.obj mkvs ∧
      (lookupD mkvs "level" JValue.null = JValue.str "error" ∨
        lookupD mkvs "level" JValue.null = JValue.str "warning") ∧
      lookupD mkvs "spans" (JValue.arr []) = JValue.arr (JValue.obj skvs :: rest) := by
  obtain ⟨kvs, mkvs, skvs, rest, h1, h2, h3, h4, h5, h6, _⟩ := processData_some data lvl e h
  refine ⟨kvs, mkvs, skvs, rest, h1, h2, h3, ?_, h6⟩
  rw [← h4]
  exact h5

/-- Claim C3, witness at the Scenario A record. -/
theorem C3_entry_conditions_witness :
    ∃ kvs mkvs skvs rest,
      dataScenarioA = JValue.obj kvs ∧
      lookupD kvs "reason" JValue.null = JValue.str "compiler-message" ∧
      lookupD kvs "message" (JValue.obj []) = JValue.obj mkvs ∧
      (lookupD mkvs "level" JValue.null = JValue.str "error" ∨
        lookupD mkvs "level" JValue.null = JValue.str "warning") ∧
      lookupD mkvs "spans" (JValue.arr []) = JValue.arr (JValue.obj skvs :: rest) :=
  C3_entry_conditions dataScenarioA (JValue.str "error")
    "error|src/main.rs:10|mismatched types" rfl

/-- Claim C4: every produced entry is composed from the first element of
`spans` as `level|file_name:line_start|message`, with a missing `file_name`
defaulting to `"unknown"`, a missing `line_start` defaulting to `0`, and a
missing `message` text defaulting to the empty string (the defaults are the
third arguments of the `lookupD` calls below). -/
theorem C4_entry_format (data lvl : JValue) (e : String)
    (h : processData data = Except.ok (some (lvl, e))) :
    ∃ kvs mkvs skvs rest,
      data = JValue.obj kvs ∧
      lookupD kvs "message" (JValue.obj []) = JValue.obj mkvs ∧
      lookupD mkvs "spans" (JValue.arr []) = JValue.arr (JValue.obj skvs :: rest) ∧
      e = pyStr lvl ++ "|" ++ pyStr (lookupD skvs "file_name" (JValue.str "unknown"))
          ++ ":" ++ pyStr (lookupD skvs "line_start" (JValue.num 0))
          ++ "|" ++ pyStr (lookupD mkvs "message" (JValue.str "")) := by
  obtain ⟨kvs, mkvs, skvs, rest, h1, _, h3, _, _, h6, h7⟩ := processData_some data lvl e h
  exact ⟨kvs, mkvs, skvs, rest, h1, h3, h6, h7⟩

/-- Claim C4, witness at the Scenario A record. -/
theorem C4_entry_format_witness :
    ∃ kvs mkvs skvs rest,
      dataScenarioA = JValue.obj kvs ∧
      lookupD kvs "message" (JValue.obj []) = JValue.obj mkvs ∧
      lookupD mkvs "spans" (JValue.arr []) = JValue.arr (JValue.obj skvs :: rest) ∧
      "error|src/main.rs:10|mismatched types"
        = pyStr (JValue.str "error")
          ++ "|" ++ pyStr (lookupD skvs "file_name" (JValue.str "unknown"))
          ++ ":" ++ pyStr (lookupD skvs "line_start" (JValue.num 0))
          ++ "|" ++ pyStr (lookupD mkvs "message" (JValue.str "")) :=
  C4_entry_format dataScenarioA (JValue.str "error")
    "error|src/main.rs:10|mismatched types" rfl

/-- Claim C5: whenever the program completes, its output is exactly the
header `=== ERRORS ===`, the error entries deduplicated and in ascending
lexicographic order, one blank line, the header `=== WARNINGS ===`, and the
warning entries likewise deduplicated and sorted. -/
theorem C5_output_sections (input : List LineResult) (out : List String)
    (h : run input = Except.ok out) :
    ∃ errs warns, runLines input [] [] = Except.ok (errs, warns) ∧
      out = "=== ERRORS ==="
        :: (sortedSet errs ++ "" :: "=== WARNINGS ===" :: sortedSet warns) ∧
      (sortedSet errs).Sorted (· ≤ ·) ∧ (sortedSet errs).Nodup ∧
      (∀ a, a ∈ sortedSet errs ↔ a ∈ errs) ∧
      (sortedSet warns).Sorted (· ≤ ·) ∧ (sortedSet warns).Nodup ∧
      (∀ a, a ∈ sortedSet warns ↔ a ∈ warns) := by
  unfold run at h
  split at h
  · rename_i errs warns heq
    refine ⟨errs, warns, heq, ?_, sortedSet_sorted errs, sortedSet_nodup errs,
      fun a => mem_sortedSet a errs, sortedSet_sorted warns, sortedSet_nodup warns,
      fun a => mem_sortedSet a warns⟩
    injection h with h'
    rw [← h']
    rfl
  · cases h

/-- Claim C5, witness at the empty input. -/
theorem C5_output_sections_witness :
    ∃ errs warns, runLines ([] : List LineResult) [] [] = Except.ok (errs, warns) ∧
      ["=== ERRORS ===", "", "=== WARNINGS ==="]
        = "=== ERRORS ==="
          :: (sortedSet errs ++ "" :: "=== WARNINGS ===" :: sortedSet warns) ∧
      (sortedSet errs).Sorted (· ≤ ·) ∧ (sortedSet errs).Nodup ∧
      (∀ a, a ∈ sortedSet errs ↔ a ∈ errs) ∧
      (sortedSet warns).Sorted (· ≤ ·) ∧ (sortedSet warns).Nodup ∧
      (∀ a, a ∈ sortedSet warns ↔ a ∈ warns) :=
  C5_output_sections [] ["=== ERRORS ===", "", "=== WARNINGS ==="] rfl

/-- Claim C6: on the Scenario A input line, the output contains
`error|src/main.rs:10|mismatched types` under `=== ERRORS ===` (the full
output is computed exactly). -/
theorem C6_scenarioA :
    run [LineResult.ok dataScenarioA]
      = Except.ok ["=== ERRORS ===", "error|src/main.rs:10|mismatched types",
          "", "=== WARNINGS ==="] := rfl

/-- Claim C7: a line that fails JSON decoding is silently discarded (the
run is unchanged by removing it), and the total number of accumulated
entries is at most the number of successfully decoded lines. -/
theorem C7_malformed_discarded :
    (∀ pre post : List LineResult,
      run (pre ++ LineResult.malformed :: post) = run (pre ++ post)) ∧
    (∀ (input : List LineResult) (e w : List String),
      runLines input [] [] = Except.ok (e, w) →
      e.length + w.length ≤ decodedCount input) := by
  constructor
  · intro pre post
    unfold run
    rw [runLines_append, runLines_append]
    cases hp : runLines pre [] [] with
    | error er => rfl
    | ok p =>
      obtain ⟨e, w⟩ := p
      simp [runLines, step]
  · intro input e w h
    have := runLines_length input [] [] e w h
    simpa using this

/-- Claim C7, witness: one malformed line behaves as the empty input, and
the entry count bound holds at the empty input. -/
theorem C7_malformed_discarded_witness :
    run ([] ++ LineResult.malformed :: []) = run ([] ++ []) ∧
    ([] : List String).length + ([] : List String).length ≤ decodedCount [] :=
  ⟨C7_malformed_discarded.1 [] [], C7_malformed_discarded.2 [] [] [] rfl⟩

/-- Claim C8: the rendered output depends only on which entries were
accumulated, not on the order or multiplicity of their accumulation — the
only ordering in the output is the final sort, so the program is
deterministic (in this embedding the pipeline is a pure function; the
substantive content is this insensitivity to accumulation order). -/
theorem C8_deterministic_rendering (errs errs' warns warns' : List String)
    (he : ∀ a, a ∈ errs ↔ a ∈ errs') (hw : ∀ a, a ∈ warns ↔ a ∈ warns') :
    renderOutput errs warns = renderOutput errs' warns' := by
  unfold renderOutput
  rw [sortedSet_eq_of_mem_iff errs errs' he, sortedSet_eq_of_mem_iff warns warns' hw]

/-- Claim C8, witness at concrete accumulator lists. -/
theorem C8_deterministic_rendering_witness :
    renderOutput ["b", "a", "a"] ["w"] = renderOutput ["a", "b"] ["w"] :=
  C8_deterministic_rendering ["b", "a", "a"] ["a", "b"] ["w"] ["w"]
    (by
      intro a
      simp only [List.mem_cons, List.not_mem_nil, or_false]
      tauto)
    (fun _ => Iff.rfl)

/-- Claim C9: permuting the input lines leaves the output unchanged — the
final output depends only on the set of entries derived from the lines (and
a run aborts under one ordering exactly when it aborts under the other). -/
theorem C9_perm_invariant (input input' : List LineResult) (hp : input.Perm input')
    (out : List String) :
    run input = Except.ok out ↔ run input' = Except.ok out := by
  suffices H : ∀ a b : List LineResult, a.Perm b → ∀ o : List String,
      run a = Except.ok o → run b = Except.ok o by
    exact ⟨H input input' hp out, H input' input hp.symm out⟩
  intro a b hab o hrun
  have hex : ∃ p, runLines a [] [] = Except.ok p := by
    unfold run at hrun
    split at hrun
    · rename_i errs warns heq
      exact ⟨(errs, warns), heq⟩
    · cases hrun
  have hallA : ∀ l ∈ a, okStep l = true := (runLines_ok_iff a [] []).mp hex
  have hallB : ∀ l ∈ b, okStep l = true := fun l hl => hallA l (hab.mem_iff.mpr hl)
  have hA := runLines_eq_of_ok a [] [] hallA
  have hB := runLines_eq_of_ok b [] [] hallB
  simp only [List.nil_append] at hA hB
  rw [run_eq_render a _ _ hA] at hrun
  rw [run_eq_render b _ _ hB]
  rw [← hrun]
  have hrend : renderOutput (b.filterMap lineErr) (b.filterMap lineWarn)
      = renderOutput (a.filterMap lineErr) (a.filterMap lineWarn) := by
    unfold renderOutput
    rw [sortedSet_eq_of_mem_iff _ _
        (fun x => (List.Perm.filterMap lineErr hab).mem_iff.symm),
      sortedSet_eq_of_mem_iff _ _
        (fun x => (List.Perm.filterMap lineWarn hab).mem_iff.symm)]
  rw [hrend]

/-- Claim C9, witness: swapping a blank and a malformed line preserves the
output. -/
theorem C9_perm_invariant_witness :
    run [LineResult.blank, LineResult.malformed]
        = Except.ok ["=== ERRORS ===", "", "=== WARNINGS ==="] ↔
      run [LineResult.malformed, LineResult.blank]
        = Except.ok ["=== ERRORS ===", "", "=== WARNINGS ==="] :=
  C9_perm_invariant _ _ (List.Perm.swap LineResult.malformed LineResult.blank [])
    ["=== ERRORS ===", "", "=== WARNINGS ==="]

/-- Claim C10: a compiler-message record with recognized severity whose
`spans` value is any falsy value (`null`, `false`, `0`, the empty string,
or the empty list) is silently dropped — `processData` returns no entry and
raises nothing, exactly as for an empty sequence. -/
theorem C10_falsy_spans_dropped (kvs mkvs : List (String × JValue))
    (hreason : lookupD kvs "reason" JValue.null = JValue.str "compiler-message")
    (hmsg : lookupD kvs "message" (JValue.obj []) = JValue.obj mkvs)
    (hlevel : lookupD mkvs "level" JValue.null = JValue.str "error" ∨
      lookupD mkvs "level" JValue.null = JValue.str "warning")
    (hspans : lookupD mkvs "spans" (JValue.arr []) = JValue.null ∨
      lookupD mkvs "spans" (JValue.arr []) = JValue.bool false ∨
      lookupD mkvs "spans" (JValue.arr []) = JValue.num 0 ∨
      lookupD mkvs "spans" (JValue.arr []) = JValue.str "" ∨
      lookupD mkvs "spans" (JValue.arr []) = JValue.arr []) :
    processData (JValue.obj kvs) = Except.ok none := by
  have ht : truthy (lookupD mkvs "spans" (JValue.arr [])) = false := by
    rcases hspans with h | h | h | h | h <;> rw [h] <;> decide
  have hlv : (jEqStr (lookupD mkvs "level" JValue.null) "error" ||
      jEqStr (lookupD mkvs "level" JValue.null) "warning") = true := by
    rcases hlevel with h | h <;> simp [h, jEqStr]
  simp [processData, pyGet, bind, Except.bind, hreason, hmsg, hlv, ht, jEqStr,
    pure, Except.pure]

/-- Claim C10, witness at a record whose `spans` is JSON `null`. -/
theorem C10_falsy_spans_dropped_witness :
    processData (JValue.obj [("reason", JValue.str "compiler-message"),
      ("message", JValue.obj [("level", JValue.str "error"),
        ("spans", JValue.null)])]) = Except.ok none :=
  C10_falsy_spans_dropped _ _ rfl rfl (Or.inl rfl) (Or.inl rfl)
